import Mathlib

/-!
Verification of `src/Pdfifier/src/backend/article_processor.py`.

The Python module defines two classes:

* `ArticleProcessor` — reads rows of candidate links from a CSV file,
  skips blank or already-processed links, processes each remaining link
  (fetch, render to PDF, record in a tracking file), and swallows
  per-link exceptions.
* `Article` — fetches a document for a URL, extracts title / paragraph
  text / image URLs, and renders a PDF, fetching each image into a
  temporary file.

The embedding below is a shallow model: network and filesystem effects
are supplied by explicit oracles (`Option Doc` for a fetch result,
`RenderEnv` for the PDF-rendering side effects, a `Bool` for the
tracking-file append), and the run is a fold over the CSV fields that
threads an explicit `RunState` recording the tracking-file lines, the
in-memory processed set, and traces of which links were fetched,
fetched successfully, and rendered successfully.
-/

namespace Pdfifier

/-- String literal constants of the source (`'untitled'`, the scheme
test string of `src.startswith('http')`, and the newline separator of
`'\n'.join`). -/
def placeholderTitle : String := "untitled"

def httpPre : String := "http"

def nlSep : String := "\n"

/-- Model of Python `str.startswith(pre)`: the characters of `pre` are
a prefix of the characters of `s`. -/
def startswith (s pre : String) : Bool := pre.data.isPrefixOf s.data

/-- Model of Python `str.strip()` on the character list: drop leading
and trailing whitespace characters. -/
def stripChars (l : List Char) : List Char :=
  ((l.dropWhile Char.isWhitespace).reverse.dropWhile Char.isWhitespace).reverse

/-- Model of Python `str.strip()` (`link.strip()`, `line.strip()`). -/
def pyStrip (s : String) : String := ⟨stripChars s.data⟩

/-- One `<img>` element as seen by `img.get('src')`: the `src`
attribute, absent (`None`) or its string value. -/
structure ImgTag where
  src : Option String
deriving DecidableEq

/-- A parsed document as `fetch_content` consumes it via BeautifulSoup:
`title` is `none` when the document has no title element, and
`some os` when one is present, where `os` is the element's `.string`
(which is itself `None` — here `none` — when the element has no single
string child, e.g. `<title></title>`); `paragraphs` are the
`get_text()` values of the `<p>` elements in document order; `imgs`
the `<img>` elements in document order. -/
structure Doc where
  title : Option (Option String)
  paragraphs : List String
  imgs : List ImgTag
deriving DecidableEq

/-- The `Article` object: `__init__` sets `url` and leaves
`title = None`, `text = None`, `images = []`. -/
structure Article where
  url : String
  title : Option String := none
  text : Option String := none
  images : List String := []
deriving DecidableEq

/-- Model of `Article._extract_text`: `'\n'.join(p.get_text() for p in paragraphs)`. -/
def Article._extract_text (doc : Doc) : String :=
  String.intercalate nlSep doc.paragraphs

/-- One iteration of the `_extract_images` loop:
`src = img.get('src'); if src and src.startswith('http'):
images.append(src)`. Python truthiness of `src` is `src` present and
non-empty. -/
def imgStep (images : List String) (img : ImgTag) : List String :=
  match img.src with
  | some src => if src ≠ "" ∧ startswith src httpPre then images ++ [src] else images
  | none => images

/-- Model of `Article._extract_images`: the loop
`for img in soup.find_all('img'): ...` over the image elements, as a
left fold of `imgStep` starting from `images = []`. -/
def Article._extract_images (doc : Doc) : List String :=
  doc.imgs.foldl imgStep []

/-- Model of `Article.fetch_content`: the fetch either raises (oracle `none`,
covering network failure, timeout and `raise_for_status`) — re-raised
as a generic exception — or yields a parsed document, from which the
fields are set:
`self.title = soup.title.string if soup.title else 'untitled'`,
`self.text = self._extract_text(soup)`,
`self.images = self._extract_images(soup)`. -/
def Article.fetch_content (a : Article) (resp : Option Doc) : Except String Article :=
  match resp with
  | none => .error ("Failed to fetch content from " ++ a.url)
  | some doc =>
    .ok { a with
          title := match doc.title with
                   | some s => s
                   | none => some placeholderTitle
          text := some (Article._extract_text doc)
          images := Article._extract_images doc }

/-- Helper for `Article.safe_title`'s `(self.title or 'untitled')`: Python `or`
falls through on falsy values, i.e. on `None` and on the empty string. -/
def orUntitled (t : Option String) : String :=
  match t with
  | some s => if s = "" then placeholderTitle else s
  | none => placeholderTitle

/-- Model of `Article.safe_title`:
`''.join(c if c.isalnum() else '_' for c in (self.title or 'untitled'))`.
`c.isalnum()` is modelled by `Char.isAlphanum` (they agree on ASCII). -/
def Article.safe_title (a : Article) : String :=
  ⟨(orUntitled a.title).data.map (fun c => if c.isAlphanum then c else '_')⟩

/-- The observable content of the FPDF object built by `to_pdf`:
the `cell` texts (the title line), the `multi_cell` texts (the body),
and the image URLs successfully embedded by `pdf.image`. -/
structure Pdf where
  cells : List (Option String)
  multiCells : List (Option String)
  images : List String
deriving DecidableEq

/-- Side-effect oracle for one `to_pdf` call. `preOk` is the success of
the statements before the image loop (`FPDF()`, `add_page`, `set_font`,
`cell`, `multi_cell`); `imgResult i` gives, for the `i`-th image URL,
whether `requests.get(...).content` plus the temp-file write succeeded,
and whether `pdf.image(img_path, w=100)` succeeded; `outputOk` the
success of `pdf.output(pdf_path)`. -/
structure RenderEnv where
  preOk : Bool
  imgResult : Nat → Bool × Bool
  outputOk : Bool

/-- The per-image loop of `to_pdf`. Each iteration is wrapped in its own
`try/except`: on fetch failure nothing happens; on fetch success the
temp file at `pdf_path + '_img.jpg'` is (over)written, then
`pdf.image` either succeeds and `os.remove(img_path)` deletes the temp
file, or raises — in which case the `os.remove` line is never reached
and the temp file is left on disk. The returned `Bool` is whether the
temp file exists after the loop. -/
def imgLoop (res : Nat → Bool × Bool) : List String → Nat → Pdf → Bool → Pdf × Bool
  | [], _, pdf, temp => (pdf, temp)
  | url :: rest, i, pdf, temp =>
    if (res i).1 then
      if (res i).2 then
        imgLoop res rest (i + 1) { pdf with images := pdf.images ++ [url] } false
      else
        imgLoop res rest (i + 1) pdf true
    else
      imgLoop res rest (i + 1) pdf temp

/-- Model of `Article.to_pdf`: builds the PDF (title cell, body multi_cell), runs
the per-image loop, and writes the document. The whole body is wrapped
in a `try/except` that re-raises a generic exception. The result pairs
the outcome (the written PDF, or the raised error) with whether the
temporary image file exists after the call. -/
def Article.to_pdf (a : Article) (env : RenderEnv) : Except String Pdf × Bool :=
  if env.preOk then
    let r := imgLoop env.imgResult a.images 0
      { cells := [a.title], multiCells := [a.text], images := [] } false
    if env.outputOk then
      (.ok r.1, r.2)
    else
      (.error ("Failed to generate PDF for " ++ a.url), r.2)
  else
    (.error ("Failed to generate PDF for " ++ a.url), false)

/-- State of one `ArticleProcessor` run: the tracking-file lines (one
URL per line, in order), the in-memory `processed_links` set (as a
duplicate-free insertion list), and traces of the links on which
`fetch_content` was invoked, on which it succeeded, and for which
`to_pdf` succeeded (PDF written). -/
structure RunState where
  fileLines : List String
  processed : List String
  fetched : List String
  fetchedOk : List String
  rendered : List String
deriving DecidableEq

/-- Python `set.add`: insert if absent. -/
def addSet (s : List String) (x : String) : List String :=
  if x ∈ s then s else s ++ [x]

/-- Model of `ArticleProcessor._load_processed_links`: `set()` when the tracking
file does not exist (`none`), else
`set(line.strip() for line in f if line.strip())`. -/
def _load_processed_links (file : Option (List String)) : List String :=
  match file with
  | none => []
  | some lines =>
    lines.foldl
      (fun s line =>
        let l := pyStrip line
        if l = "" then s else addSet s l)
      []

/-- Model of `ArticleProcessor._save_processed_link`: appends `link + '\n'` to
the tracking file, then adds `link` to the in-memory set. The `Bool`
oracle is whether the file append succeeds; when it raises, the
`self.processed_links.add(link)` line is never reached, so the state is
returned unchanged together with `false`. -/
def _save_processed_link (st : RunState) (link : String) (appendOk : Bool) :
    RunState × Bool :=
  if appendOk then
    ({ st with
       fileLines := st.fileLines ++ [link]
       processed := addSet st.processed link }, true)
  else
    (st, false)

/-- Side-effect oracle for one processing attempt of one CSV field:
the fetch result for `fetch_content`, the rendering environment for
`to_pdf`, and the success of the tracking-file append in
`_save_processed_link`. -/
structure Outcome where
  fetch : Option Doc
  render : RenderEnv
  appendOk : Bool

/-- The body of the inner loop of `ArticleProcessor.process_articles`
for one CSV field: `link = link.strip()`; skip when blank or already in
`processed_links`; otherwise fetch, render, and save, where the inner
`try/except` catches any exception from `fetch_content`, `to_pdf` or
`_save_processed_link` and falls through to the next field. -/
def processField (st : RunState) (o : Outcome) (field : String) : RunState :=
  let link := pyStrip field
  if link = "" ∨ link ∈ st.processed then
    st
  else
    let st1 := { st with fetched := st.fetched ++ [link] }
    match Article.fetch_content { url := link } o.fetch with
    | .error _ => st1
    | .ok a =>
      let st2 := { st1 with fetchedOk := st1.fetchedOk ++ [link] }
      match (a.to_pdf o.render).1 with
      | .error _ => st2
      | .ok _ =>
        let st3 := { st2 with rendered := st2.rendered ++ [link] }
        (_save_processed_link st3 link o.appendOk).1

/-- The inner `for link in row` loop, threading the per-attempt oracle
index. -/
def processRow : RunState → (Nat → Outcome) → Nat → List String → RunState × Nat
  | st, _, k, [] => (st, k)
  | st, oc, k, f :: fs => processRow (processField st (oc k) f) oc (k + 1) fs

/-- The outer `for row in reader` loop. -/
def processRows : RunState → (Nat → Outcome) → Nat → List (List String) → RunState
  | st, _, _, [] => st
  | st, oc, k, r :: rs =>
    let p := processRow st oc k r
    processRows p.1 oc p.2 rs

/-- The processor state right after `__init__`: the tracking file's
lines (empty when the file does not exist) and the loaded processed
set; nothing fetched or rendered yet. -/
def initState (track : Option (List String)) : RunState :=
  { fileLines := track.getD []
    processed := _load_processed_links track
    fetched := []
    fetchedOk := []
    rendered := [] }

/-- Model of `ArticleProcessor.process_articles`: `none` for the CSV file models
the outer `try/except` catching a failure to open the input file (the
run does nothing); otherwise the nested loops run over every field of
every row. -/
def process_articles (csv : Option (List (List String)))
    (track : Option (List String)) (oc : Nat → Outcome) : RunState :=
  match csv with
  | none => initState track
  | some rows => processRows (initState track) oc 0 rows

/-! Concrete sample inputs used to evaluate the model at specific
points. -/

/-- Sample URL string. -/
def uS : String := "u"

/-- Sample document: a titled page with one paragraph and no images. -/
def doc0 : Doc := { title := some (some "t"), paragraphs := ["p"], imgs := [] }

/-- Sample document whose title element is present but empty:
`soup.title` is truthy while `soup.title.string` is `None`. -/
def docC5 : Doc := { title := some none, paragraphs := [], imgs := [] }

/-- Rendering environment in which every side effect succeeds. -/
def envAllOk : RenderEnv :=
  { preOk := true, imgResult := fun _ => (true, true), outputOk := true }

/-- Rendering environment in which every image is fetched and written
to the temporary file, but every `pdf.image` call raises. -/
def envEmbedFail : RenderEnv :=
  { preOk := true, imgResult := fun _ => (true, false), outputOk := true }

/-- Sample article carrying one image URL. -/
def artOneImg : Article :=
  { url := uS, title := some ("t"), text := some ("x"), images := [("http://i")] }

/-- Outcome oracle: every attempt fully succeeds. -/
def ocGood : Nat → Outcome :=
  fun _ => { fetch := some doc0, render := envAllOk, appendOk := true }

/-- Outcome oracle: fetch and render succeed, but the tracking-file
append raises. -/
def ocNoAppend : Nat → Outcome :=
  fun _ => { fetch := some doc0, render := envAllOk, appendOk := false }

/-! Helper lemmas. -/

theorem addSet_mem {s : List String} {x y : String} :
    x ∈ addSet s y ↔ x ∈ s ∨ x = y := by
  unfold addSet
  split
  · rename_i hy
    constructor
    · exact fun h => Or.inl h
    · rintro (h | rfl)
      · exact h
      · exact hy
  · simp [List.mem_append]

theorem addSet_mem_self {s : List String} {y : String} : y ∈ addSet s y :=
  addSet_mem.mpr (Or.inr rfl)

theorem addSet_mono {s : List String} {x y : String} (h : x ∈ s) :
    x ∈ addSet s y := addSet_mem.mpr (Or.inl h)

theorem startswith_empty : startswith ("") httpPre = false := rfl

/-- The in-loop guard of `_extract_images`: since the empty string does
not start with `'http'`, the truthiness conjunct is redundant. -/
theorem extract_guard (src : String) (A B : List String) :
    (if src ≠ "" ∧ startswith src httpPre then A else B) =
      (if startswith src httpPre then A else B) := by
  by_cases hs : src = ""
  · subst hs
    rw [if_neg (by simp), if_neg (by simp [startswith_empty])]
  · by_cases hp : startswith src httpPre
    · rw [if_pos ⟨hs, hp⟩, if_pos hp]
    · rw [if_neg (fun h => hp h.2), if_neg hp]

theorem imgStep_eq (acc : List String) (img : ImgTag) {s : String}
    (h : img.src = some s) :
    imgStep acc img = if startswith s httpPre then acc ++ [s] else acc := by
  rw [imgStep, h]
  exact extract_guard s (acc ++ [s]) acc

theorem extract_images_aux (l : List ImgTag) (acc : List String) :
    l.foldl imgStep acc
      = acc ++ (l.filterMap ImgTag.src).filter (fun s => startswith s httpPre) := by
  induction l generalizing acc with
  | nil => simp
  | cons img l ih =>
    cases h : img.src with
    | none => simp [List.foldl_cons, imgStep, h, List.filterMap_cons, ih]
    | some s =>
      rw [List.foldl_cons, List.filterMap_cons, h, imgStep_eq acc img h]
      by_cases hp : startswith s httpPre
      · rw [if_pos hp, ih]
        simp [hp, List.append_assoc]
      · rw [if_neg hp, ih]
        simp [hp]

theorem imgLoop_keeps_text (res : Nat → Bool × Bool) :
    ∀ (urls : List String) (i : Nat) (pdf : Pdf) (temp : Bool),
      (imgLoop res urls i pdf temp).1.cells = pdf.cells ∧
      (imgLoop res urls i pdf temp).1.multiCells = pdf.multiCells := by
  intro urls
  induction urls with
  | nil => intro i pdf temp; simp [imgLoop]
  | cons url rest ih =>
    intro i pdf temp
    rw [imgLoop]
    by_cases h1 : (res i).1
    · by_cases h2 : (res i).2
      · simpa [h1, h2] using ih (i + 1) { pdf with images := pdf.images ++ [url] } false
      · simpa [h1, h2] using ih (i + 1) pdf true
    · simpa [h1] using ih (i + 1) pdf temp

theorem imgLoop_temp_clean (res : Nat → Bool × Bool)
    (h : ∀ i, (res i).1 = true → (res i).2 = true) :
    ∀ (urls : List String) (i : Nat) (pdf : Pdf),
      (imgLoop res urls i pdf false).2 = false := by
  intro urls
  induction urls with
  | nil => intro i pdf; simp [imgLoop]
  | cons url rest ih =>
    intro i pdf
    rw [imgLoop]
    by_cases h1 : (res i).1
    · rw [if_pos h1, if_pos (h i h1)]
      exact ih (i + 1) { pdf with images := pdf.images ++ [url] }
    · rw [if_neg h1]
      exact ih (i + 1) pdf

/-- Exhaustive description of one iteration of the field loop: either
the field is skipped (blank after strip, or already processed), or the
stripped link is attempted, in which case the iteration stops after the
fetch (fetch raised), after the render (`to_pdf` raised), after the
render with the save raising, or completes fully — appending the link
to the tracking file and adding it to the in-memory set. -/
theorem processField_cases (st : RunState) (o : Outcome) (f : String) :
    processField st o f = st ∨
    (pyStrip f ≠ "" ∧ pyStrip f ∉ st.processed ∧
      (processField st o f = { st with fetched := st.fetched ++ [pyStrip f] } ∨
       processField st o f = { st with fetched := st.fetched ++ [pyStrip f], fetchedOk := st.fetchedOk ++ [pyStrip f] } ∨
       processField st o f = { st with fetched := st.fetched ++ [pyStrip f], fetchedOk := st.fetchedOk ++ [pyStrip f], rendered := st.rendered ++ [pyStrip f] } ∨
       processField st o f = { st with fetched := st.fetched ++ [pyStrip f], fetchedOk := st.fetchedOk ++ [pyStrip f], rendered := st.rendered ++ [pyStrip f], fileLines := st.fileLines ++ [pyStrip f], processed := addSet st.processed (pyStrip f) })) := by
  by_cases h : pyStrip f = "" ∨ pyStrip f ∈ st.processed
  · left
    simp only [processField]
    rw [if_pos h]
  · have h1 : pyStrip f ≠ "" := fun hc => h (Or.inl hc)
    have h2 : pyStrip f ∉ st.processed := fun hc => h (Or.inr hc)
    right
    refine ⟨h1, h2, ?_⟩
    cases hf : o.fetch with
    | none =>
      left
      simp only [processField, Article.fetch_content, hf]
      rw [if_neg h]
    | some doc =>
      by_cases hp : o.render.preOk
      · by_cases ho : o.render.outputOk
        · by_cases ha : o.appendOk
          · right; right; right
            simp only [processField, Article.fetch_content, hf, Article.to_pdf,
              _save_processed_link, hp, ho, ha, if_true]
            rw [if_neg h]
          · right; right; left
            simp only [processField, Article.fetch_content, hf, Article.to_pdf,
              _save_processed_link, hp, ho, if_true]
            rw [if_neg h]
            simp [ha]
        · right; left
          simp only [processField, Article.fetch_content, hf, Article.to_pdf, hp, if_true]
          rw [if_neg h]
          simp [ho]
      · right; left
        simp only [processField, Article.fetch_content, hf, Article.to_pdf]
        rw [if_neg h]
        simp [hp]

/-- Any property preserved by each iteration of the field loop is
preserved by a whole row. -/
theorem processRow_inv {P : RunState → Prop}
    (hstep : ∀ st o f, P st → P (processField st o f)) :
    ∀ (fields : List String) (st : RunState) (oc : Nat → Outcome) (k : Nat),
      P st → P (processRow st oc k fields).1 := by
  intro fields
  induction fields with
  | nil => intro st oc k h; simpa [processRow] using h
  | cons f fs ih =>
    intro st oc k h
    rw [processRow]
    exact ih _ oc (k + 1) (hstep st (oc k) f h)

/-- Any property preserved by each iteration of the field loop is
preserved by the whole nested row loop. -/
theorem processRows_inv {P : RunState → Prop}
    (hstep : ∀ st o f, P st → P (processField st o f)) :
    ∀ (rows : List (List String)) (st : RunState) (oc : Nat → Outcome) (k : Nat),
      P st → P (processRows st oc k rows) := by
  intro rows
  induction rows with
  | nil => intro st oc k h; simpa [processRows] using h
  | cons r rs ih =>
    intro st oc k h
    rw [processRows]
    exact ih _ oc _ (processRow_inv hstep r st oc k h)

/-- Any property preserved by each iteration of the field loop and
holding of the freshly initialized state holds of the final state of a
run. -/
theorem process_articles_inv {P : RunState → Prop}
    (hstep : ∀ st o f, P st → P (processField st o f))
    (csv : Option (List (List String))) (track : Option (List String))
    (oc : Nat → Outcome) (hinit : P (initState track)) :
    P (process_articles csv track oc) := by
  cases csv with
  | none => simpa [process_articles] using hinit
  | some rows => exact processRows_inv hstep rows _ oc 0 hinit

/-! Claim C3. -/

/-- C3 counterexample: with one image whose fetch and temp-file write
succeed but whose `pdf.image` call raises, `to_pdf` returns (the
per-image exception is swallowed and the PDF is still produced), yet
the temporary image file still exists afterwards — `os.remove` sits
after `pdf.image` inside the `try` block, so it is skipped on an embed
failure. -/
theorem C3_counterexample :
    (Article.to_pdf artOneImg envEmbedFail).2 = true := rfl

/-- C3 (amended): each successfully fetched image is written to the
temporary path and embedded, and the temporary file is deleted after a
SUCCESSFUL embed; deletion is guaranteed only when every attempted
embed succeeds — if `pdf.image` raises, the deletion is skipped and the
temp file survives `to_pdf`. -/
theorem C3_temp_deleted (a : Article) (env : RenderEnv)
    (h : ∀ i, (env.imgResult i).1 = true → (env.imgResult i).2 = true) :
    (a.to_pdf env).2 = false := by
  unfold Article.to_pdf
  by_cases hp : env.preOk
  · rw [if_pos hp]
    by_cases ho : env.outputOk
    · simpa [ho] using imgLoop_temp_clean env.imgResult h a.images 0 _
    · simpa [ho] using imgLoop_temp_clean env.imgResult h a.images 0 _
  · rw [if_neg hp]

/-- C3 witness: with every embed succeeding, the temp file is gone. -/
theorem C3_witness : (Article.to_pdf artOneImg envAllOk).2 = false :=
  C3_temp_deleted artOneImg envAllOk (fun _ _ => rfl)

/-! Claim C5. -/

/-- C5 counterexample: on a document whose title element is present but
empty, `soup.title` is truthy, so `fetch_content` stores
`soup.title.string`, which is `None` — the fetch succeeds and the
article's title is `None`, not a placeholder string. -/
theorem C5_counterexample :
    ((Article.fetch_content { url := uS } (some docC5)).toOption.map Article.title)
      = some none := rfl

/-- C5 (amended): after a successful fetch, the title is the `.string`
of the first title element when one is present (`None` when that
element has no single string child, e.g. when it is empty), and the
placeholder `'untitled'` only when the document has no title element;
the title can therefore be `None`. -/
theorem C5_title_rule (a : Article) (doc : Doc) :
    ∃ a2, a.fetch_content (some doc) = .ok a2 ∧
      a2.title = doc.title.getD (some placeholderTitle) := by
  refine ⟨_, rfl, ?_⟩
  cases h : doc.title <;> simp [Article.fetch_content, h]

/-! Claim C6. -/

/-- C6: the extracted image list is exactly the `src` attributes of the
image elements, in document order, restricted to those whose value
starts with the scheme test string `'http'`; it is a plain filter, so
repeated URLs are kept and every `src` failing the prefix test
(relative paths in particular) is dropped. -/
theorem C6_extract_images (doc : Doc) :
    Article._extract_images doc =
      (doc.imgs.filterMap ImgTag.src).filter (fun s => startswith s httpPre) := by
  unfold Article._extract_images
  exact extract_images_aux doc.imgs []

/-! Claim C7. -/

/-- C7: `safe_title` is a pure, deterministic function of the title
(same title, same filename); a `None` or empty title yields the fixed
placeholder-derived name (`'untitled'`, itself alphanumeric, so
sanitization leaves it unchanged); and two distinct titles of equal
length that agree except at positions where both hold non-alphanumeric
characters sanitize to the same filename — a collision. -/
theorem C7_safe_title :
    (∀ a b : Article, a.title = b.title → a.safe_title = b.safe_title) ∧
    (∀ a : Article, a.title = none ∨ a.title = some ("") →
      a.safe_title = placeholderTitle) ∧
    (∀ (a b : Article) (t u : String), a.title = some t → b.title = some u →
      t ≠ u → t.data.length = u.data.length →
      (∀ i (hi : i < t.data.length) (hj : i < u.data.length),
        t.data[i] = u.data[i] ∨
          ((t.data[i]).isAlphanum = false ∧ (u.data[i]).isAlphanum = false)) →
      a.safe_title = b.safe_title) := by
  refine ⟨?_, ?_, ?_⟩
  · intro a b h
    simp only [Article.safe_title, h]
  · intro a h
    rcases h with h | h
    · simp only [Article.safe_title, h]
      decide
    · simp only [Article.safe_title, h]
      decide
  · intro a b t u ha hb hne hlen hpt
    by_cases ht : t = ""
    · exfalso
      apply hne
      have ht0 : t.data = [] := by rw [ht]
      have hu : u.data = [] := by
        apply List.length_eq_zero.mp
        rw [← hlen, ht0]
        rfl
      apply String.ext
      rw [ht0, hu]
    · have hu : u ≠ "" := by
        intro hu0
        apply ht
        have ht0 : t.data = [] := by
          apply List.length_eq_zero.mp
          rw [hlen, hu0]
          rfl
        apply String.ext
        rw [ht0]
      simp only [Article.safe_title, ha, hb, orUntitled, if_neg ht, if_neg hu]
      apply String.ext
      apply List.ext_getElem
      · simp [hlen]
      · intro i h1 h2
        rw [List.getElem_map, List.getElem_map]
        rcases hpt i (by simpa using h1) (by simpa using h2) with heq | ⟨hta, hua⟩
        · rw [heq]
        · simp [hta, hua]

/-- C7 witness: two distinct one-character titles, both
non-alphanumeric, collide to the same sanitized filename. -/
theorem C7_witness :
    Article.safe_title { url := uS, title := some ("-") }
      = Article.safe_title { url := uS, title := some ("+") } :=
  C7_safe_title.2.2 _ _ ("-") ("+") rfl rfl (by decide) (by decide) (by decide)

/-! Claim C8. -/

/-- C8: whenever the statements before the image loop and the final
`pdf.output` succeed, `to_pdf` succeeds no matter how the individual
image fetches and embeds went — the per-image `try/except` confines
each failure to its own iteration — and the produced PDF carries the
title cell and the body text; conversely, a `to_pdf` failure can only
come from outside the per-image loop. -/
theorem C8_image_isolation :
    (∀ (a : Article) (env : RenderEnv), env.preOk = true → env.outputOk = true →
      ∃ pdf, (a.to_pdf env).1 = .ok pdf ∧ pdf.cells = [a.title] ∧
        pdf.multiCells = [a.text]) ∧
    (∀ (a : Article) (env : RenderEnv) (e : String), (a.to_pdf env).1 = .error e →
      env.preOk = false ∨ env.outputOk = false) := by
  constructor
  · intro a env hpre hout
    refine ⟨(imgLoop env.imgResult a.images 0
        { cells := [a.title], multiCells := [a.text], images := [] } false).1,
      ?_, ?_, ?_⟩
    · unfold Article.to_pdf
      rw [if_pos hpre]
      simp only [hout, if_true]
    · exact (imgLoop_keeps_text env.imgResult a.images 0 _ false).1
    · exact (imgLoop_keeps_text env.imgResult a.images 0 _ false).2
  · intro a env e herr
    by_cases hpre : env.preOk
    · by_cases hout : env.outputOk
      · exfalso
        unfold Article.to_pdf at herr
        rw [if_pos hpre] at herr
        simp only [hout, if_true] at herr
        exact Except.noConfusion herr
      · exact Or.inr (by simpa using hout)
    · exact Or.inl (by simpa using hpre)

/-- C8 witness: with every image embed failing but the surrounding
steps succeeding, the PDF is still produced with title and body. -/
theorem C8_witness :
    ∃ pdf, (Article.to_pdf artOneImg envEmbedFail).1 = .ok pdf ∧
      pdf.cells = [artOneImg.title] ∧ pdf.multiCells = [artOneImg.text] :=
  C8_image_isolation.1 artOneImg envEmbedFail rfl rfl

/-! Claim C9. -/

/-- C9: `_save_processed_link` writes `link + '\n'` to the tracking
file first and adds to the in-memory set only afterwards; when the file
append raises, the add is never executed, so both the file lines and
the in-memory set are unchanged. -/
theorem C9_save_order (st : RunState) (link : String) :
    (_save_processed_link st link false).1 = st ∧
    (_save_processed_link st link true).1.fileLines = st.fileLines ++ [link] ∧
    (_save_processed_link st link true).1.processed = addSet st.processed link := by
  simp [_save_processed_link]

/-! Claim C4. -/

/-- C4: a URL that is in the processed set loaded from the tracking
file at startup is never fetched during the run — the membership test
happens before `Article(link)` is even constructed, and the processed
set only grows. -/
theorem C4_no_refetch (csv : Option (List (List String)))
    (track : Option (List String)) (oc : Nat → Outcome) (u : String)
    (h : u ∈ _load_processed_links track) :
    u ∉ (process_articles csv track oc).fetched := by
  have step : ∀ st o f, (u ∈ st.processed ∧ u ∉ st.fetched) →
      (u ∈ (processField st o f).processed ∧ u ∉ (processField st o f).fetched) := by
    intro st o f hpair
    obtain ⟨hmem, hnf⟩ := hpair
    rcases processField_cases st o f with heq | ⟨hne0, hnin, hc⟩
    · rw [heq]
      exact ⟨hmem, hnf⟩
    · have hne : u ≠ pyStrip f := fun huv => hnin (huv ▸ hmem)
      have hnf2 : u ∉ st.fetched ++ [pyStrip f] := fun hin =>
        (List.mem_append.mp hin).elim hnf (fun hs => hne (List.mem_singleton.mp hs))
      rcases hc with he | he | he | he <;> rw [he]
      · exact ⟨hmem, hnf2⟩
      · exact ⟨hmem, hnf2⟩
      · exact ⟨hmem, hnf2⟩
      · exact ⟨addSet_mono hmem, hnf2⟩
  exact (process_articles_inv step csv track oc ⟨h, List.not_mem_nil u⟩).2

/-- C4 witness: a URL recorded in the tracking file is not fetched. -/
theorem C4_witness :
    uS ∉ (process_articles (some [[uS]]) (some [uS]) ocGood).fetched :=
  C4_no_refetch (some [[uS]]) (some [uS]) ocGood uS (by decide)

/-! Claim C2. -/

/-- C2: during a run, the in-memory processed set and the tracking file
gain only fully processed URLs: every member of the final processed set
was either loaded at startup or had its fetch succeed AND its render
(PDF write) succeed, and every tracking-file line is either an original
line or the URL of a successfully rendered article —
`_save_processed_link` runs strictly after `to_pdf` returns, and any
exception from `fetch_content` or `to_pdf` skips it. -/
theorem C2_only_done_recorded (csv : Option (List (List String)))
    (track : Option (List String)) (oc : Nat → Outcome) :
    (∀ u, u ∈ (process_articles csv track oc).processed →
      u ∈ _load_processed_links track ∨
        (u ∈ (process_articles csv track oc).fetchedOk ∧
          u ∈ (process_articles csv track oc).rendered)) ∧
    (∀ u, u ∈ (process_articles csv track oc).fileLines →
      u ∈ track.getD [] ∨ u ∈ (process_articles csv track oc).rendered) := by
  have step : ∀ st o f,
      ((∀ x, x ∈ st.processed → x ∈ _load_processed_links track ∨
          (x ∈ st.fetchedOk ∧ x ∈ st.rendered)) ∧
        (∀ x, x ∈ st.fileLines → x ∈ track.getD [] ∨ x ∈ st.rendered)) →
      ((∀ x, x ∈ (processField st o f).processed → x ∈ _load_processed_links track ∨
          (x ∈ (processField st o f).fetchedOk ∧ x ∈ (processField st o f).rendered)) ∧
        (∀ x, x ∈ (processField st o f).fileLines → x ∈ track.getD [] ∨
          x ∈ (processField st o f).rendered)) := by
    intro st o f hpair
    obtain ⟨hp, hf⟩ := hpair
    rcases processField_cases st o f with heq | ⟨hne0, hnin, hc⟩
    · rw [heq]
      exact ⟨hp, hf⟩
    · rcases hc with he | he | he | he <;> rw [he]
      · exact ⟨hp, hf⟩
      · refine ⟨fun x hx => ?_, hf⟩
        exact (hp x hx).imp_right (And.imp_left (List.mem_append_left _))
      · refine ⟨fun x hx => ?_, fun x hx => ?_⟩
        · exact (hp x hx).imp_right
            (And.imp (List.mem_append_left _) (List.mem_append_left _))
        · exact (hf x hx).imp_right (List.mem_append_left _)
      · refine ⟨fun x hx => ?_, fun x hx => ?_⟩
        · rcases addSet_mem.mp hx with hx0 | rfl
          · exact (hp x hx0).imp_right
              (And.imp (List.mem_append_left _) (List.mem_append_left _))
          · exact Or.inr ⟨List.mem_append_right _ (List.mem_singleton.mpr rfl),
              List.mem_append_right _ (List.mem_singleton.mpr rfl)⟩
        · rcases List.mem_append.mp hx with hx0 | hx0
          · exact (hf x hx0).imp_right (List.mem_append_left _)
          · rw [List.mem_singleton.mp hx0]
            exact Or.inr (List.mem_append_right _ (List.mem_singleton.mpr rfl))
  exact process_articles_inv step csv track oc
    ⟨fun x hx => Or.inl hx, fun x hx => Or.inl hx⟩

/-- C2 witness: after a fully successful run on one URL, the processed
set's new member was fetched and rendered. -/
theorem C2_witness :
    uS ∈ _load_processed_links none ∨
      (uS ∈ (process_articles (some [[uS]]) none ocGood).fetchedOk ∧
        uS ∈ (process_articles (some [[uS]]) none ocGood).rendered) :=
  (C2_only_done_recorded (some [[uS]]) none ocGood).1 uS (by decide)

/-! Claim C1. -/

/-- C1 counterexample: the URL is fetched, extracted and its PDF
written (it is in the `rendered` trace), but the tracking-file append
raises, so the tracking file after the run contains the URL zero times,
not exactly once — success of fetch/extract/PDF-write alone does not
put the URL in the tracking file. -/
theorem C1_counterexample :
    uS ∈ (process_articles (some [[uS]]) none ocNoAppend).rendered ∧
      ((process_articles (some [[uS]]) none ocNoAppend).fileLines).count uS = 0 := by
  decide

/-- C1 (amended): if a URL absent from the tracking file at startup is
successfully processed during the run AND its tracking append succeeds
(equivalently: it ends up in the in-memory processed set), then the
tracking file after the run contains it exactly once, no matter how
often it occurred among the input rows and fields. -/
theorem C1_tracked_once (csv : Option (List (List String)))
    (track : Option (List String)) (oc : Nat → Outcome) (u : String)
    (h0 : u ∉ _load_processed_links track)
    (h1 : (track.getD []).count u = 0)
    (h2 : u ∈ (process_articles csv track oc).processed) :
    ((process_articles csv track oc).fileLines).count u = 1 := by
  have step : ∀ st o f,
      ((u ∈ st.processed → st.fileLines.count u = 1) ∧
        (u ∉ st.processed → st.fileLines.count u = 0)) →
      ((u ∈ (processField st o f).processed → (processField st o f).fileLines.count u = 1) ∧
        (u ∉ (processField st o f).processed → (processField st o f).fileLines.count u = 0)) := by
    intro st o f hpair
    obtain ⟨ha, hb⟩ := hpair
    rcases processField_cases st o f with heq | ⟨hne0, hnin, hc⟩
    · rw [heq]
      exact ⟨ha, hb⟩
    · rcases hc with he | he | he | he <;> rw [he]
      · exact ⟨ha, hb⟩
      · exact ⟨ha, hb⟩
      · exact ⟨ha, hb⟩
      · by_cases hu : u = pyStrip f
        · constructor
          · intro _
            show (st.fileLines ++ [pyStrip f]).count u = 1
            rw [List.count_append, hb (hu ▸ hnin), ← hu]
            simp
          · intro hnm
            exact absurd (hu ▸ addSet_mem_self) hnm
        · have hL : (st.fileLines ++ [pyStrip f]).count u = st.fileLines.count u := by
            rw [List.count_append]
            simp [List.count_cons, Ne.symm hu]
          constructor
          · intro hm
            show (st.fileLines ++ [pyStrip f]).count u = 1
            rw [hL]
            exact ha ((addSet_mem.mp hm).resolve_right hu)
          · intro hnm
            show (st.fileLines ++ [pyStrip f]).count u = 0
            rw [hL]
            exact hb (fun hmem => hnm (addSet_mono hmem))
  exact (process_articles_inv step csv track oc
    ⟨fun hmem => absurd hmem h0, fun _ => h1⟩).1 h2

/-- C1 witness: a URL occurring twice in the input, with every step
succeeding, ends up in the tracking file exactly once. -/
theorem C1_witness :
    ((process_articles (some [[uS, uS]]) none ocGood).fileLines).count uS = 1 :=
  C1_tracked_once (some [[uS, uS]]) none ocGood uS (by decide) (by decide) (by decide)

/-! Claim C10. -/

theorem stripChars_pad (s w w2 : List Char)
    (hw : ∀ c ∈ w, Char.isWhitespace c = true)
    (hw2 : ∀ c ∈ w2, Char.isWhitespace c = true) :
    stripChars (w ++ s ++ w2) = stripChars s := by
  have hw2r : ∀ c ∈ w2.reverse, Char.isWhitespace c = true := by
    intro c hc
    exact hw2 c (List.mem_reverse.mp hc)
  unfold stripChars
  rw [List.append_assoc, List.dropWhile_append_of_pos hw, List.dropWhile_append]
  by_cases h : (s.dropWhile Char.isWhitespace).isEmpty
  · rw [if_pos h, List.dropWhile_eq_nil_iff.mpr hw2, List.isEmpty_iff.mp h]
  · rw [if_neg h, List.reverse_append, List.dropWhile_append_of_pos hw2r]

theorem pyStrip_pad (s w w2 : String)
    (hw : ∀ c ∈ w.data, Char.isWhitespace c = true)
    (hw2 : ∀ c ∈ w2.data, Char.isWhitespace c = true) :
    pyStrip (w ++ s ++ w2) = pyStrip s := by
  unfold pyStrip
  rw [String.data_append, String.data_append]
  exact congrArg String.mk (stripChars_pad s.data w.data w2.data hw hw2)

theorem processField_strip_congr (st : RunState) (o : Outcome) {f g : String}
    (h : pyStrip f = pyStrip g) : processField st o f = processField st o g := by
  simp only [processField, h]

theorem load_line_congr (l1 l2 : List String) {a b : String}
    (h : pyStrip a = pyStrip b) :
    _load_processed_links (some (l1 ++ a :: l2)) =
      _load_processed_links (some (l1 ++ b :: l2))  := by
  simp only [_load_processed_links, List.foldl_append, List.foldl_cons, h]

theorem load_blank_ignored (l1 l2 : List String) {b : String} (h : pyStrip b = "") :
    _load_processed_links (some (l1 ++ b :: l2)) =
      _load_processed_links (some (l1 ++ l2)) := by
  simp only [_load_processed_links, List.foldl_append, List.foldl_cons, h, if_pos]

/-- C10: candidate links are stripped before the emptiness test, the
membership test, processing and persistence, and tracking-file lines
are stripped on load with blank-after-strip lines ignored: a URL
surrounded by whitespace in the input behaves exactly like its trimmed
form, one surrounded by whitespace in the tracking file loads exactly
like its trimmed form, a line that is blank after stripping does not
affect the loaded set, and the link persisted by a field is always its
stripped form. -/
theorem C10_whitespace_stripping :
    (∀ (st : RunState) (o : Outcome) (s w w2 : String),
      (∀ c ∈ w.data, Char.isWhitespace c = true) →
      (∀ c ∈ w2.data, Char.isWhitespace c = true) →
      processField st o (w ++ s ++ w2) = processField st o s) ∧
    (∀ (l1 l2 : List String) (s w w2 : String),
      (∀ c ∈ w.data, Char.isWhitespace c = true) →
      (∀ c ∈ w2.data, Char.isWhitespace c = true) →
      _load_processed_links (some (l1 ++ (w ++ s ++ w2) :: l2)) =
        _load_processed_links (some (l1 ++ s :: l2))) ∧
    (∀ (l1 l2 : List String) (b : String), pyStrip b = "" →
      _load_processed_links (some (l1 ++ b :: l2)) =
        _load_processed_links (some (l1 ++ l2))) ∧
    (∀ (st : RunState) (o : Outcome) (f : String),
      (processField st o f).fileLines = st.fileLines ∨
      (processField st o f).fileLines = st.fileLines ++ [pyStrip f]) := by
  refine ⟨?_, ?_, ?_, ?_⟩
  · intro st o s w w2 hw hw2
    exact processField_strip_congr st o (pyStrip_pad s w w2 hw hw2)
  · intro l1 l2 s w w2 hw hw2
    exact load_line_congr l1 l2 (pyStrip_pad s w w2 hw hw2)
  · intro l1 l2 b h
    exact load_blank_ignored l1 l2 h
  · intro st o f
    rcases processField_cases st o f with heq | ⟨hne0, hnin, hc⟩
    · rw [heq]
      exact Or.inl rfl
    · rcases hc with he | he | he | he <;> rw [he]
      exacts [Or.inl rfl, Or.inl rfl, Or.inl rfl, Or.inr rfl]

/-- C10 witness: a URL padded with spaces is processed exactly like the
trimmed URL. -/
theorem C10_witness :
    processField (initState none) (ocGood 0) ((" ") ++ uS ++ (" ")) =
      processField (initState none) (ocGood 0) uS :=
  C10_whitespace_stripping.1 (initState none) (ocGood 0) uS (" ") (" ")
    (by decide) (by decide)

end Pdfifier
